import Mathlib

/-!
Verification of the data-mover job-orchestration code
(`shippingAndReceiving.py`, `moveDataFactory.py`) against its
natural-language specification.

The Python source is shallowly embedded: pure helpers become Lean
functions over `List Nat` (bytes) and `String`; the mutable pipeline
object becomes an explicit `PipelineState` record threaded through the
stage functions; external effects (subprocess invocation, SQL, S3) are
represented by explicit input parameters describing their observable
outcome; Python exceptions become a typed outcome value.
-/

set_option maxRecDepth 4000

/-- Fuel-indexed worker for `chunksOf`; the fuel is the list length, so the
recursion is structural and the function reduces definitionally. -/
def chunksOfAux (n : Nat) : Nat → List α → List (List α)
  | 0, _ => []
  | _ + 1, [] => []
  | fuel + 1, x :: xs => (x :: xs).take n :: chunksOfAux n fuel ((x :: xs).drop n)

/-- Split a list into consecutive chunks of size `n` (the last chunk may be
shorter).  Models both Python's chunked `f.read(n)` loop and the slice
comprehension `[s[i:i+4] for i in range(0, len(s), 4)]`. -/
def chunksOf (n : Nat) (l : List α) : List (List α) :=
  if n = 0 then [] else chunksOfAux n l.length l

/-- Python `sep.join(parts)`: concatenate with `sep` between consecutive
parts. -/
def joinWith (sep : List α) : List (List α) → List α
  | [] => []
  | [x] => x
  | x :: y :: xs => x ++ sep ++ joinWith sep (y :: xs)

/-- Count the positions at which `pat` begins inside `l`; models
`len(re.findall('(?= error:)', text))`-style zero-width counting for a
non-empty pattern. -/
def countSubstr (pat : List Char) : List Char → Nat
  | [] => 0
  | c :: rest => (if pat.isPrefixOf (c :: rest) then 1 else 0) + countSubstr pat rest

/-! ### MD5 (`hashlib.md5`)

Executable embedding of the MD5 digest that the source calls through
`hashlib.md5(...).digest()` / `.hexdigest()`.  Words are `Nat` reduced
mod `2^32` where overflow matters. -/

/-- Truncate to a 32-bit word. -/
def w32 (n : Nat) : Nat := n % 4294967296

/-- 32-bit wrapping addition. -/
def wadd (a b : Nat) : Nat := w32 (a + b)

/-- 32-bit bitwise complement (argument reduced mod `2^32` first). -/
def wnot (a : Nat) : Nat := 4294967295 - w32 a

/-- 32-bit left rotation. -/
def rotl (x s : Nat) : Nat := w32 ((w32 x <<< s) ||| (w32 x >>> (32 - s)))

/-- MD5 sine-derived round constants. -/
def md5K : List Nat :=
  [0xd76aa478, 0xe8c7b756, 0x242070db, 0xc1bdceee,
   0xf57c0faf, 0x4787c62a, 0xa8304613, 0xfd469501,
   0x698098d8, 0x8b44f7af, 0xffff5bb1, 0x895cd7be,
   0x6b901122, 0xfd987193, 0xa679438e, 0x49b40821,
   0xf61e2562, 0xc040b340, 0x265e5a51, 0xe9b6c7aa,
   0xd62f105d, 0x02441453, 0xd8a1e681, 0xe7d3fbc8,
   0x21e1cde6, 0xc33707d6, 0xf4d50d87, 0x455a14ed,
   0xa9e3e905, 0xfcefa3f8, 0x676f02d9, 0x8d2a4c8a,
   0xfffa3942, 0x8771f681, 0x6d9d6122, 0xfde5380c,
   0xa4beea44, 0x4bdecfa9, 0xf6bb4b60, 0xbebfbc70,
   0x289b7ec6, 0xeaa127fa, 0xd4ef3085, 0x04881d05,
   0xd9d4d039, 0xe6db99e5, 0x1fa27cf8, 0xc4ac5665,
   0xf4292244, 0x432aff97, 0xab9423a7, 0xfc93a039,
   0x655b59c3, 0x8f0ccc92, 0xffeff47d, 0x85845dd1,
   0x6fa87e4f, 0xfe2ce6e0, 0xa3014314, 0x4e0811a1,
   0xf7537e82, 0xbd3af235, 0x2ad7d2bb, 0xeb86d391]

/-- MD5 per-round left-rotation amounts. -/
def md5S : List Nat :=
  [7, 12, 17, 22, 7, 12, 17, 22, 7, 12, 17, 22, 7, 12, 17, 22,
   5, 9, 14, 20, 5, 9, 14, 20, 5, 9, 14, 20, 5, 9, 14, 20,
   4, 11, 16, 23, 4, 11, 16, 23, 4, 11, 16, 23, 4, 11, 16, 23,
   6, 10, 15, 21, 6, 10, 15, 21, 6, 10, 15, 21, 6, 10, 15, 21]

/-- Byte `i` of a byte list (0 past the end). -/
def getByte (l : List Nat) (i : Nat) : Nat := l.getD i 0

/-- Little-endian 32-bit word `g` of a 64-byte chunk. -/
def chunkWord (c : List Nat) (g : Nat) : Nat :=
  getByte c (4 * g) + 256 * getByte c (4 * g + 1) +
    65536 * getByte c (4 * g + 2) + 16777216 * getByte c (4 * g + 3)

/-- One MD5 round: round `i` applied to the running `(A, B, C, D)` state. -/
def md5Round (c : List Nat) (st : Nat × Nat × Nat × Nat) (i : Nat) : Nat × Nat × Nat × Nat :=
  match st with
  | (a, b, cc, d) =>
    let fg : Nat × Nat :=
      if i < 16 then ((b &&& cc) ||| (wnot b &&& d), i)
      else if i < 32 then ((d &&& b) ||| (wnot d &&& cc), (5 * i + 1) % 16)
      else if i < 48 then (b ^^^ cc ^^^ d, (3 * i + 5) % 16)
      else (cc ^^^ (b ||| wnot d), (7 * i) % 16)
    let f := wadd (wadd (wadd fg.1 a) (md5K.getD i 0)) (chunkWord c fg.2)
    (d, wadd b (rotl f (md5S.getD i 0)), b, cc)

/-- Process one 64-byte chunk, updating the four state words. -/
def md5Chunk (st : Nat × Nat × Nat × Nat) (c : List Nat) : Nat × Nat × Nat × Nat :=
  match st with
  | (a0, b0, c0, d0) =>
    match (List.range 64).foldl (md5Round c) (a0, b0, c0, d0) with
    | (a, b, cc, d) => (wadd a0 a, wadd b0 b, wadd c0 cc, wadd d0 d)

/-- MD5 padding: `0x80`, zeros to 56 mod 64, then the 64-bit little-endian
bit length. -/
def md5Pad (msg : List Nat) : List Nat :=
  let len := msg.length
  let z := (120 - (len + 1) % 64) % 64
  let bitLen := (len * 8) % 18446744073709551616
  msg ++ [128] ++ List.replicate z 0 ++ (List.range 8).map (fun i => (bitLen >>> (8 * i)) % 256)

/-- The four MD5 state words of a message. -/
def md5Words (msg : List Nat) : Nat × Nat × Nat × Nat :=
  (chunksOf 64 (md5Pad msg)).foldl md5Chunk (0x67452301, 0xefcdab89, 0x98badcfe, 0x10325476)

/-- Little-endian byte serialization of a 32-bit word. -/
def wordLE (w : Nat) : List Nat :=
  [w % 256, (w >>> 8) % 256, (w >>> 16) % 256, (w >>> 24) % 256]

/-- `hashlib.md5(msg).digest()`: the 16-byte MD5 digest. -/
def md5Bytes (msg : List Nat) : List Nat :=
  match md5Words msg with
  | (a, b, c, d) => wordLE a ++ wordLE b ++ wordLE c ++ wordLE d

/-- One lowercase hexadecimal digit. -/
def hexChar (n : Nat) : Char :=
  if n < 10 then Char.ofNat (48 + n) else Char.ofNat (87 + n)

/-- Two-digit lowercase hex of one byte. -/
def byteHex (b : Nat) : List Char := [hexChar (b / 16), hexChar (b % 16)]

/-- `hashlib.md5(msg).hexdigest()`: the 32-character lowercase hex digest. -/
def md5Hex (msg : List Nat) : String :=
  String.mk ((md5Bytes msg).flatMap byteHex)


/-! ### `MoveData` checksum utility (`shippingAndReceiving.py`)

A local file is embedded as its byte content, a `List Nat`. -/

namespace MoveData

/-- `MoveData.calculateLocalMD5`: streaming MD5 of the file read in
8192-byte chunks (the incremental `file_hash.update(chunk)` loop hashes
the concatenation of the chunks). -/
def calculateLocalMD5 (content : List Nat) : String :=
  md5Hex (chunksOf 8192 content).flatten

/-- `MoveData.calculateEtagChecksum`: MD5 each `chunk_size`-sized chunk,
MD5 the concatenated digests, and format as `hash-count` (the predicted
S3 multipart composite ETag). -/
def calculateEtagChecksum (content : List Nat) (chunkSize : Nat) : String :=
  let md5s := (chunksOf chunkSize content).map md5Bytes
  md5Hex md5s.flatten ++ "-" ++ toString md5s.length

/-- The 8 MB multipart chunk size `self.UPLOAD_CHUNK_SIZE`. -/
def UPLOAD_CHUNK_SIZE : Nat := 8 * 1024 * 1024

/-- The double-quote character (written via its code point to keep string
literals quote-free). -/
def quoteChar : Char := Char.ofNat 34

/-- Python `etag.replace(chr(34), '')`: drop every double quote. -/
def stripQuotes (s : String) : String :=
  String.mk (s.data.filter (fun c => c ≠ quoteChar))

/-- `MoveData.etagCompare`: any empty (falsy) argument short-circuits to
`true`; otherwise the raw tag is compared with the plain zip hash and the
quote-stripped tag with the predicted composite ETag. -/
def etagCompare (etag zipHash localETag : String) : Bool :=
  if etag = "" ∨ zipHash = "" ∨ localETag = "" then true
  else
    let et := stripQuotes etag
    if etag = zipHash then true
    else if et = localETag then true
    else false

end MoveData


/-! ### `MoveData` secret lifecycle (`shippingAndReceiving.py`) -/

namespace MoveData

/-- `string.ascii_lowercase`. -/
def asciiLowercase : String := "abcdefghijklmnopqrstuvwxyz"

/-- `string.ascii_uppercase`. -/
def asciiUppercase : String := "ABCDEFGHIJKLMNOPQRSTUVWXYZ"

/-- `string.digits`. -/
def asciiDigits : String := "0123456789"

/-- Python `s.replace(c, '')`: delete every occurrence of one character. -/
def removeChar (s : List Char) (c : Char) : List Char := s.filter (fun x => x ≠ c)

/-- The password alphabet: letters and digits with the visually confusing
characters 0, O and lowercase L removed. -/
def alphabet : List Char :=
  removeChar (removeChar (removeChar ((asciiLowercase ++ asciiUppercase ++ asciiDigits).data) '0') 'O') 'l'

/-- The configured password length `self.PASSWORD_LENGTH`. -/
def PASSWORD_LENGTH : Nat := 128

/-- One call of `secrets.choice(alphabet)`: randomness is embedded as a
stream of draws (`List Nat`), each index reduced into the alphabet. -/
def choiceFromAlphabet (stream : List Nat) (i : Nat) : Char :=
  alphabet.getD (stream.getD i 0 % alphabet.length) 'a'

/-- `MoveData.generatePassword`: draw `passwordLength` characters from the
alphabet, retry until the draw has a lowercase, an uppercase and at least
three digits, then join the 4-character slices with a dot separator.  The
unbounded `while True` retry loop is fuel-indexed; `none` means fuel ran
out before a draw satisfied the policy. -/
def generatePassword (passwordLength : Nat) : Nat → List Nat → Option String
  | 0, _ => none
  | fuel + 1, stream =>
    let password := (List.range passwordLength).map (choiceFromAlphabet stream)
    if password.any (fun c => c.isLower) ∧ password.any (fun c => c.isUpper) ∧
        3 ≤ password.countP (fun c => c.isDigit) then
      some (String.mk (joinWith ['.'] (chunksOf 4 password)))
    else
      generatePassword passwordLength fuel (stream.drop passwordLength)

/-- Python exception kinds raised by the embedded code. -/
inductive PyErr where
  | ioError
  | exception
  | assertionError
  deriving DecidableEq, Repr

/-- `MoveData.setSavedPassword`: reconcile a caller-supplied candidate with
the stored (decrypted) `backup_key` value.  The stored value is threaded
explicitly; `gen` stands for the password `MoveData.generatePassword`
returns when both candidate and stored value are absent.  Result: the
resolution outcome paired with the stored value after the call (the
`UPDATE ... WHERE category='backup_key'` write, or the unchanged value). -/
def setSavedPassword (storedPass suggestedPass : Option String) (gen : String) :
    Except PyErr String × Option String :=
  match suggestedPass, storedPass with
  | some s, some st =>
    if s ≠ st then (Except.error PyErr.ioError, some st)
    else (Except.ok s, some st)
  | some s, none => (Except.ok s, some s)
  | none, some st => (Except.ok st, some st)
  | none, none => (Except.ok gen, some gen)

end MoveData

/-! ### `MoveData` pipeline stages (`shippingAndReceiving.py`)

The mutable fields of the `MoveData` object that the cited stages touch
are collected in `PipelineState`; a ledger-row write becomes an appended
`(column, value)` pair.  The outcome of an external `subprocess` call is
an explicit parameter, and whether the stage method returns normally or
propagates an exception is an explicit `StageOutcome`. -/

/-- Observable outcome of one `subprocess` invocation: the tool ran and
produced combined stdout/stderr text, or the call itself raised (for
example the executable was missing). -/
inductive ToolOutcome where
  | ran (stdout stderr : String)
  | toolRaised
  deriving DecidableEq, Repr

/-- Whether a stage method returned normally or propagated an exception. -/
inductive StageOutcome where
  | normal
  | raised (e : MoveData.PyErr)
  deriving DecidableEq, Repr

/-- The mutable `MoveData` fields the dump/restore/final stages use. -/
structure PipelineState where
  logEvents : Bool
  ledgerWrites : List (String × String)
  errLog : String
  pgDumpErrorCount : Nat
  pgRestoreErrorCount : Nat
  deriving DecidableEq, Repr

namespace MoveData

/-- `MoveData.writeTableValue`: record a ledger-row column write, unless
event logging is disabled (then the method returns without writing). -/
def writeTableValue (st : PipelineState) (attr value : String) : PipelineState :=
  if st.logEvents then
    { st with ledgerWrites := st.ledgerWrites ++ [(attr, value)] }
  else st

/-- Count of tool error markers: `len(re.findall('(?= error:)', log.lower()))`. -/
def countErrorMarkers (log : String) : Nat :=
  countSubstr " error:".data (log.data.map Char.toLower)

/-- `MoveData.dump`: unknown object types write the ledger error marker and
raise before the tool runs.  Otherwise `pg_dump` is invoked: if it ran,
its combined output is appended to the error log and the error-marker
count stored; if the invocation raised, the except-block writes the
ledger error marker and executes `raise IOError` — but the `finally:
return self` clause then discards the in-flight exception (Python
semantics: a `return` in `finally` swallows the exception), so the method
still returns normally. -/
def dump (st : PipelineState) (objectType : String) (tool : ToolOutcome) :
    PipelineState × StageOutcome :=
  if objectType ≠ "table" ∧ objectType ≠ "schema" then
    let st1 := writeTableValue st "error_message" "Dump Error"
    let st2 := writeTableValue st1 "results" "Error"
    (st2, StageOutcome.raised PyErr.exception)
  else
    match tool with
    | ToolOutcome.ran out err =>
      let log := "PG_DUMP Output \r\n" ++ out ++ err
      ({ st with errLog := st.errLog ++ log, pgDumpErrorCount := countErrorMarkers log },
        StageOutcome.normal)
    | ToolOutcome.toolRaised =>
      let st1 := writeTableValue st "error_message" "Dump Error"
      let st2 := writeTableValue st1 "results" "Error"
      (st2, StageOutcome.normal)

/-- `MoveData.restore` (the cited `pg_restore` invocation): if the tool
ran, combined output is logged and the error-marker count stored; if the
invocation raised, the except-block writes the ledger error marker and —
with no `raise` statement — falls through to `return self`, so the method
returns normally either way. -/
def restore (st : PipelineState) (tool : ToolOutcome) : PipelineState × StageOutcome :=
  match tool with
  | ToolOutcome.ran out err =>
    let log := "PG_RESTORE Output \r\n" ++ out ++ err
    ({ st with errLog := st.errLog ++ log, pgRestoreErrorCount := countErrorMarkers log },
      StageOutcome.normal)
  | ToolOutcome.toolRaised =>
    let st1 := writeTableValue st "error_message" "Restore Error"
    let st2 := writeTableValue st1 "results" "Error"
    (st2, StageOutcome.normal)

/-- The `running_time` SQL expression written by `final` (DATE_PART
arithmetic on `end_time - start_time`; SQL-internal quoting elided). -/
def runningTimeSQL : String :=
  "(DATE_PART(day, end - start) * 24 + DATE_PART(hour, end - start)) * 60 + DATE_PART(minute, end - start)"

/-- `MoveData.final`: write `end_time`, `running_time` and
`results='Success'` to the ledger row, lower the include flag when the
job is not a single run, and return the string Success.  The accumulated
`pgDumpErrorCount` / `pgRestoreErrorCount` fields are not consulted.
(`cleanupTempDir` only touches the filesystem and is not modeled.) -/
def final (st : PipelineState) (singleRun : Bool) : PipelineState × String :=
  let st1 := writeTableValue st "end_time" "CURRENT_TIMESTAMP"
  let st2 := writeTableValue st1 "running_time" runningTimeSQL
  let st3 := writeTableValue st2 "results" "Success"
  let st4 := if singleRun then st3 else writeTableValue st3 "include_flag" "N"
  (st4, "Success")

end MoveData

/-! ### Transport factory and dispatch (`moveDataFactory.py`) -/

/-- The concrete transport classes `DataMovers.create` can instantiate. -/
inductive TransportProfile where
  | backupToS3
  | moveRDSToRDS
  | s3ToLake
  | createDatabase
  | structureBackup
  | buildRunnerServer
  | stagingToProcess
  | processToStaging
  deriving DecidableEq, Repr

namespace DataMovers

/-- The move-type names the `if/elif` chain in `DataMovers.create`
recognizes, in source order. -/
def recognizedMoveTypes : List String :=
  ["backup_runner", "backup_lake", "dev_databases", "raw_files", "staging_database",
   "production", "runner_to_lake", "move_schemas", "s3_to_lake", "s3_to_lake_partial",
   "create_database", "structure_backup", "build_runner_server", "staging_to_process",
   "process_to_staging"]

/-- `DataMovers.create`: map the `--type` name (absent modeled as `none`)
to a transport profile through the `if/elif` chain; any unrecognized name
reaches the `else` branch, which raises `Exception` before any job runs. -/
def create (theType : Option String) : Except MoveData.PyErr TransportProfile :=
  if theType = some "backup_runner" ∨ theType = some "backup_lake" ∨
      theType = some "dev_databases" ∨ theType = some "raw_files" ∨
      theType = some "staging_database" ∨ theType = some "production" then
    Except.ok TransportProfile.backupToS3
  else if theType = some "runner_to_lake" ∨ theType = some "move_schemas" then
    Except.ok TransportProfile.moveRDSToRDS
  else if theType = some "s3_to_lake" ∨ theType = some "s3_to_lake_partial" then
    Except.ok TransportProfile.s3ToLake
  else if theType = some "create_database" then
    Except.ok TransportProfile.createDatabase
  else if theType = some "structure_backup" then
    Except.ok TransportProfile.structureBackup
  else if theType = some "build_runner_server" then
    Except.ok TransportProfile.buildRunnerServer
  else if theType = some "staging_to_process" then
    Except.ok TransportProfile.stagingToProcess
  else if theType = some "process_to_staging" then
    Except.ok TransportProfile.processToStaging
  else
    Except.error MoveData.PyErr.exception

end DataMovers

/-- Connection descriptor (`MyDB.getConnectionInfo()`), reduced to the
fields the job dicts carry. -/
structure DBInfo where
  host : String
  dbName : String
  deriving DecidableEq, Repr

/-- One row of `self.jobList` as built by
`AbstractTransport.getJobsFromControlTable`. -/
structure JobRow where
  id : Nat
  objectName : String
  objectType : String
  newSchemaName : Option String
  deriving DecidableEq, Repr

/-- One row of `self.jobList` as built by
`S3ToLake.getJobsFromControlTable` (adds the decrypted password). -/
structure S3JobRow where
  id : Nat
  objectName : String
  objectType : String
  thePassword : Option String
  deriving DecidableEq, Repr

/-- The per-dispatch fields shared by every job dict. -/
structure DispatchCtx where
  devDBInfo : DBInfo
  remoteDBInfo : Option DBInfo
  theType : String
  startDate : String
  tempLocation : String
  deriving DecidableEq, Repr

/-- One `jobInfo` dict built by `AbstractTransport.createJobInfoList`. -/
structure JobInfo where
  id : Nat
  devDBInfo : DBInfo
  session : String
  objectName : String
  objectType : String
  remoteDBInfo : Option DBInfo
  schemaNameDest : Option String
  startDate : String
  deriving DecidableEq, Repr

/-- One `jobInfo` dict built by `S3ToLake.createJobInfoList` (adds the
password and the table-subset restriction). -/
structure S3JobInfo where
  id : Nat
  devDBInfo : DBInfo
  session : String
  objectName : String
  objectType : String
  remoteDBInfo : Option DBInfo
  startDate : String
  tempLocation : String
  thePassword : Option String
  theTables : Option (List String)
  deriving DecidableEq, Repr

namespace AbstractTransport

/-- The dict appended per job by `AbstractTransport.createJobInfoList`. -/
def mkJobInfo (ctx : DispatchCtx) (j : JobRow) : JobInfo :=
  { id := j.id, devDBInfo := ctx.devDBInfo, session := ctx.theType,
    objectName := j.objectName, objectType := j.objectType,
    remoteDBInfo := ctx.remoteDBInfo, schemaNameDest := j.newSchemaName,
    startDate := ctx.startDate }

/-- `AbstractTransport.createJobInfoList`: `assert numJobs > 0` (raising
`AssertionError` on an empty eligible-job list), then build one job dict
per row in order. -/
def createJobInfoList (ctx : DispatchCtx) (jobList : List JobRow) :
    Except MoveData.PyErr (List JobInfo) :=
  if jobList.length > 0 then
    Except.ok (jobList.map (mkJobInfo ctx))
  else
    Except.error MoveData.PyErr.assertionError

/-- A transport `run` method, reduced to its dispatch skeleton: build the
job-info list, then hand every built job to the worker pool (`exec`).
An `Except.error` means the run aborted before any worker started. -/
def runDispatch (ctx : DispatchCtx) (jobList : List JobRow) (exec : JobInfo → α) :
    Except MoveData.PyErr (List α) :=
  match createJobInfoList ctx jobList with
  | Except.error e => Except.error e
  | Except.ok infos => Except.ok (infos.map exec)

end AbstractTransport

namespace S3ToLake

/-- Python dict lookup in `self.tables` (schema name to table subset),
embedded as association-list lookup. -/
def lookupTable (tables : List (String × List String)) (key : String) : Option (List String) :=
  match tables with
  | [] => none
  | (k, v) :: rest => if k = key then some v else lookupTable rest key

/-- The dict appended per job by `S3ToLake.createJobInfoList`. -/
def mkS3JobInfo (ctx : DispatchCtx) (j : S3JobRow) (tableList : Option (List String)) : S3JobInfo :=
  { id := j.id, devDBInfo := ctx.devDBInfo, session := ctx.theType,
    objectName := j.objectName, objectType := j.objectType,
    remoteDBInfo := ctx.remoteDBInfo, startDate := ctx.startDate,
    tempLocation := ctx.tempLocation, thePassword := j.thePassword,
    theTables := tableList }

/-- The `for theJob in self.jobList` loop body of
`S3ToLake.createJobInfoList`: when a table restriction is present and the
object name is not one of its keys, `continue` silently skips the job;
otherwise the job dict is appended with its table subset. -/
def buildJobInfos (ctx : DispatchCtx) (tables : Option (List (String × List String))) :
    List S3JobRow → List S3JobInfo
  | [] => []
  | j :: rest =>
    match tables with
    | some tbl =>
      match lookupTable tbl j.objectName with
      | none => buildJobInfos ctx tables rest
      | some tl => mkS3JobInfo ctx j (some tl) :: buildJobInfos ctx tables rest
    | none => mkS3JobInfo ctx j none :: buildJobInfos ctx tables rest

/-- `S3ToLake.createJobInfoList`: `assert numJobs > 0` on the unfiltered
eligible-job list, then run the filtering build loop. -/
def createJobInfoList (ctx : DispatchCtx) (tables : Option (List (String × List String)))
    (jobList : List S3JobRow) : Except MoveData.PyErr (List S3JobInfo) :=
  if jobList.length > 0 then
    Except.ok (buildJobInfos ctx tables jobList)
  else
    Except.error MoveData.PyErr.assertionError

/-- `S3ToLake.run`, reduced to its dispatch skeleton (serial loop over the
built jobs). -/
def runDispatch (ctx : DispatchCtx) (tables : Option (List (String × List String)))
    (jobList : List S3JobRow) (exec : S3JobInfo → α) : Except MoveData.PyErr (List α) :=
  match createJobInfoList ctx tables jobList with
  | Except.error e => Except.error e
  | Except.ok infos => Except.ok (infos.map exec)

end S3ToLake
theorem getD_mem : ∀ (l : List α) (n : Nat) (d : α), n < l.length → l.getD n d ∈ l := by
  intro l
  induction l with
  | nil => intro n d h; cases h
  | cons x xs ih =>
    intro n d h
    cases n with
    | zero => exact List.mem_cons_self x xs
    | succ m =>
      exact List.mem_cons_of_mem x (ih m d (Nat.lt_of_succ_lt_succ h))

theorem chunksOfAux_join (n : Nat) (hn : 0 < n) :
    ∀ (fuel : Nat) (l : List α), l.length ≤ fuel → (chunksOfAux n fuel l).flatten = l := by
  intro fuel
  induction fuel with
  | zero =>
    intro l h
    have : l = [] := List.eq_nil_of_length_eq_zero (Nat.le_zero.mp h)
    subst this; rfl
  | succ f ih =>
    intro l h
    cases l with
    | nil => rfl
    | cons x xs =>
      have hdrop : ((x :: xs).drop n).length ≤ f := by
        have : ((x :: xs).drop n).length = (x :: xs).length - n := List.length_drop n (x :: xs)
        have hlen : (x :: xs).length ≤ f + 1 := h
        omega
      simp only [chunksOfAux, List.flatten_cons, ih ((x :: xs).drop n) hdrop]
      exact List.take_append_drop n (x :: xs)

theorem chunksOf_join (n : Nat) (l : List α) (hn : 0 < n) : (chunksOf n l).flatten = l := by
  unfold chunksOf
  rw [if_neg (Nat.pos_iff_ne_zero.mp hn)]
  exact chunksOfAux_join n hn l.length l (Nat.le_refl _)

theorem chunksOf_small (n : Nat) (l : List α) (hne : l ≠ []) (hlen : l.length ≤ n) :
    chunksOf n l = [l] := by
  cases l with
  | nil => exact absurd rfl hne
  | cons x xs =>
    have hn : n ≠ 0 := by
      intro h; subst h; simp at hlen
    unfold chunksOf
    rw [if_neg hn]
    show chunksOfAux n (xs.length + 1) (x :: xs) = [x :: xs]
    unfold chunksOfAux
    rw [List.take_of_length_le hlen]
    have : (x :: xs).drop n = [] := List.drop_eq_nil_of_le hlen
    rw [this]
    cases xs.length <;> rfl


theorem md5Bytes_length (msg : List Nat) : (md5Bytes msg).length = 16 := by
  unfold md5Bytes
  match md5Words msg with
  | (a, b, c, d) => simp [wordLE]

theorem flatMap_byteHex_length (l : List Nat) : (l.flatMap byteHex).length = 2 * l.length := by
  induction l with
  | nil => rfl
  | cons b bs ih => simp [List.flatMap_cons, byteHex, ih]; omega

theorem md5Hex_length (msg : List Nat) : (md5Hex msg).length = 32 := by
  show ((md5Bytes msg).flatMap byteHex).length = 32
  rw [flatMap_byteHex_length, md5Bytes_length]

theorem joinWith_countP (sep : List Char) (p : Char → Bool) (hsep : sep.countP p = 0) :
    ∀ l : List (List Char), (joinWith sep l).countP p = l.flatten.countP p := by
  intro l
  induction l with
  | nil => rfl
  | cons x xs ih =>
    cases xs with
    | nil => simp [joinWith]
    | cons y ys =>
      simp only [joinWith, List.flatten_cons, List.countP_append, hsep, ih]
      omega

theorem joinWith_length_ge (sep : List α) :
    ∀ l : List (List α), l.flatten.length ≤ (joinWith sep l).length := by
  intro l
  induction l with
  | nil => exact Nat.le_refl _
  | cons x xs ih =>
    cases xs with
    | nil => simp [joinWith]
    | cons y ys =>
      simp only [joinWith, List.flatten_cons, List.length_append] at ih ⊢
      omega

theorem mem_joinWith_of_mem_flatten (sep : List α) (c : α) :
    ∀ l : List (List α), c ∈ l.flatten → c ∈ joinWith sep l := by
  intro l
  induction l with
  | nil => intro h; exact absurd h (List.not_mem_nil c)
  | cons x xs ih =>
    cases xs with
    | nil => intro h; simpa [joinWith] using h
    | cons y ys =>
      intro h
      rw [List.flatten_cons, List.mem_append] at h
      show c ∈ x ++ sep ++ joinWith sep (y :: ys)
      rcases h with h | h
      · exact List.mem_append_left _ (List.mem_append_left _ h)
      · exact List.mem_append_right _ (ih h)

theorem mem_flatten_or_sep_of_mem_joinWith (sep : List α) (c : α) :
    ∀ l : List (List α), c ∈ joinWith sep l → c ∈ l.flatten ∨ c ∈ sep := by
  intro l
  induction l with
  | nil => intro h; exact absurd h (List.not_mem_nil c)
  | cons x xs ih =>
    cases xs with
    | nil => intro h; exact Or.inl (by simpa [joinWith] using h)
    | cons y ys =>
      intro h
      rw [show joinWith sep (x :: y :: ys) = x ++ sep ++ joinWith sep (y :: ys) from rfl,
        List.mem_append, List.mem_append] at h
      rcases h with (h | h) | h
      · exact Or.inl (by rw [List.flatten_cons, List.mem_append]; exact Or.inl h)
      · exact Or.inr h
      · rcases ih h with h' | h'
        · exact Or.inl (by rw [List.flatten_cons, List.mem_append]; exact Or.inr h')
        · exact Or.inr h'

theorem choiceFromAlphabet_mem (stream : List Nat) (i : Nat) :
    MoveData.choiceFromAlphabet stream i ∈ MoveData.alphabet := by
  unfold MoveData.choiceFromAlphabet
  exact getD_mem _ _ _ (Nat.mod_lt _ (by decide))

theorem alphabet_not_ambiguous :
    ∀ c ∈ MoveData.alphabet, c ≠ '0' ∧ c ≠ 'O' ∧ c ≠ 'l' := by decide

/-! ### Claim theorems -/

/-- C1: the claim says a failed external tool invocation in `dump` or
`restore` writes `error_message` / `results='Error'` to the ledger row
and raises a typed failure so the stage does not return normally.  The
ledger writes do happen, but both stage methods return normally on a
failed invocation: `dump`'s except-block `raise IOError` is discarded by
its `finally: return self`, and `restore`'s except-block has no raise at
all — so the remaining stages of the chain are not aborted.  This theorem
evaluates the embedded stages at the failing input. -/
theorem c1_tool_failure_stage_returns_normally (st : PipelineState) :
    (MoveData.dump st "table" ToolOutcome.toolRaised).2 = StageOutcome.normal ∧
    (MoveData.dump { st with logEvents := true } "table" ToolOutcome.toolRaised).1.ledgerWrites
      = st.ledgerWrites ++ [("error_message", "Dump Error"), ("results", "Error")] ∧
    (MoveData.restore st ToolOutcome.toolRaised).2 = StageOutcome.normal ∧
    (MoveData.restore { st with logEvents := true } ToolOutcome.toolRaised).1.ledgerWrites
      = st.ledgerWrites ++ [("error_message", "Restore Error"), ("results", "Error")] := by
  refine ⟨rfl, ?_, rfl, ?_⟩ <;>
    simp [MoveData.dump, MoveData.restore, MoveData.writeTableValue]

/-- C4: when a caller-supplied candidate and a stored password are both
present and differ, `setSavedPassword` raises `IOError` and the stored
password is left unchanged. -/
theorem c4_conflict_raises_and_preserves (st s gen : String) (hne : s ≠ st) :
    MoveData.setSavedPassword (some st) (some s) gen
      = (Except.error MoveData.PyErr.ioError, some st) := by
  simp [MoveData.setSavedPassword, hne]

/-- Witness for C4 at candidate Y against stored X. -/
theorem c4_conflict_witness :
    MoveData.setSavedPassword (some "X") (some "Y") "G"
      = (Except.error MoveData.PyErr.ioError, some "X") :=
  c4_conflict_raises_and_preserves "X" "Y" "G" (by decide)

/-- C5: password resolution is idempotent.  Whenever a first call with
candidate `x` returns normally it returns `x`, and a second call with the
same candidate against the resulting stored value returns `x` again; and
with nothing stored and no candidate, the first call returns the freshly
generated secret `g1` and stores it, and a second candidate-less call
returns that identical secret (not a new draw `g2`). -/
theorem c5_resolution_idempotent (st0 : Option String) (x g1 g2 r : String)
    (h : (MoveData.setSavedPassword st0 (some x) g1).1 = Except.ok r) :
    r = x ∧
    (MoveData.setSavedPassword (MoveData.setSavedPassword st0 (some x) g1).2 (some x) g2).1
      = Except.ok x ∧
    (MoveData.setSavedPassword none none g1).1 = Except.ok g1 ∧
    (MoveData.setSavedPassword (MoveData.setSavedPassword none none g1).2 none g2).1
      = Except.ok g1 := by
  have base1 : (MoveData.setSavedPassword none none g1).1 = Except.ok g1 := rfl
  have base2 : (MoveData.setSavedPassword (MoveData.setSavedPassword none none g1).2 none g2).1
      = Except.ok g1 := rfl
  cases st0 with
  | none =>
    have hfst : (MoveData.setSavedPassword none (some x) g1).1 = Except.ok x := rfl
    rw [hfst] at h
    refine ⟨by injection h with h'; exact h'.symm, ?_, base1, base2⟩
    show (MoveData.setSavedPassword (some x) (some x) g2).1 = Except.ok x
    simp [MoveData.setSavedPassword]
  | some st =>
    by_cases hx : x = st
    · subst hx
      have hfst : (MoveData.setSavedPassword (some x) (some x) g1).1 = Except.ok x := by
        simp [MoveData.setSavedPassword]
      rw [hfst] at h
      refine ⟨by injection h with h'; exact h'.symm, ?_, base1, base2⟩
      have hsnd : (MoveData.setSavedPassword (some x) (some x) g1).2 = some x := by
        simp [MoveData.setSavedPassword]
      rw [hsnd]
      simp [MoveData.setSavedPassword]
    · exfalso
      have hfst : (MoveData.setSavedPassword (some st) (some x) g1).1
          = Except.error MoveData.PyErr.ioError := by
        simp [MoveData.setSavedPassword, hx]
      rw [hfst] at h
      exact Except.noConfusion h

/-- Witness for C5: resolving candidate X twice against an empty store
returns X both times. -/
theorem c5_resolution_witness :
    (MoveData.setSavedPassword none (some "X") "G").1 = Except.ok "X" ∧
    (MoveData.setSavedPassword (MoveData.setSavedPassword none (some "X") "G").2
      (some "X") "H").1 = Except.ok "X" :=
  ⟨rfl, (c5_resolution_idempotent none "X" "G" "H" "X" rfl).2.1⟩

/-- C6: a dispatch whose eligible-job list is empty fails with the
`AssertionError` from `assert numJobs > 0` before any job is handed to a
worker, for both `createJobInfoList` implementations (the abstract one
used by every job-dispatching move type, and the `S3ToLake` override used
by the partial-restore types) — never a silent no-op. -/
theorem c6_zero_jobs_always_error (α : Type) (ctx : DispatchCtx)
    (tables : Option (List (String × List String)))
    (exec : JobInfo → α) (execS3 : S3JobInfo → α) :
    AbstractTransport.createJobInfoList ctx [] = Except.error MoveData.PyErr.assertionError ∧
    S3ToLake.createJobInfoList ctx tables [] = Except.error MoveData.PyErr.assertionError ∧
    AbstractTransport.runDispatch ctx [] exec = Except.error MoveData.PyErr.assertionError ∧
    S3ToLake.runDispatch ctx tables [] execS3 = Except.error MoveData.PyErr.assertionError :=
  ⟨rfl, rfl, rfl, rfl⟩

/-- C10: `final` writes `results='Success'` to the ledger row and returns
the string Success for every pipeline state — in particular for every
value of the accumulated `pgDumpErrorCount` / `pgRestoreErrorCount`
counters, which `final` never consults (the ledger-write component goes
through `writeTableValue` and is stated on the event-logging-enabled
state, since that method is a global no-op when logging is off). -/
theorem c10_final_always_success (st : PipelineState) (singleRun : Bool) :
    (MoveData.final st singleRun).2 = "Success" ∧
    ("results", "Success") ∈ (MoveData.final { st with logEvents := true } singleRun).1.ledgerWrites := by
  refine ⟨rfl, ?_⟩
  cases singleRun <;> simp [MoveData.final, MoveData.writeTableValue]

/-- C2 counterexample: the one-byte file 97 is strictly smaller than the
8 MB chunk, yet the composite prediction
`calculateEtagChecksum` differs from the plain content hash
`calculateLocalMD5` — the code always hashes the concatenated chunk
digests (here the MD5 of the single chunk digest) and appends a `-1`
part count, so the single-chunk degeneracy claimed by the spec does not
hold. -/
theorem c2_counterexample :
    ([97] : List Nat).length < MoveData.UPLOAD_CHUNK_SIZE ∧
    MoveData.calculateEtagChecksum [97] MoveData.UPLOAD_CHUNK_SIZE
      ≠ MoveData.calculateLocalMD5 [97] := by
  exact ⟨by decide, by decide⟩

/-- C2 amended: for every non-empty file strictly smaller than one chunk,
the composite prediction equals the MD5 of the single chunk digest with a
`-1` part count appended — and therefore never equals the plain content
hash (the two strings already differ in length, 34 against 32). -/
theorem c2_subchunk_composite (content : List Nat) (chunkSize : Nat)
    (h0 : 0 < content.length) (hlt : content.length < chunkSize) :
    MoveData.calculateEtagChecksum content chunkSize
      = md5Hex (md5Bytes content) ++ "-" ++ "1" ∧
    MoveData.calculateEtagChecksum content chunkSize ≠ MoveData.calculateLocalMD5 content := by
  have hne : content ≠ [] := List.ne_nil_of_length_pos h0
  have hsmall := chunksOf_small chunkSize content hne (Nat.le_of_lt hlt)
  have heq : MoveData.calculateEtagChecksum content chunkSize
      = md5Hex (md5Bytes content) ++ "-" ++ "1" := by
    unfold MoveData.calculateEtagChecksum
    rw [hsmall]
    simp only [List.map_cons, List.map_nil, List.flatten_cons, List.flatten_nil,
      List.append_nil, List.length_cons, List.length_nil]
    rfl
  refine ⟨heq, ?_⟩
  rw [heq]
  intro hbad
  have hlen := congrArg String.length hbad
  rw [MoveData.calculateLocalMD5] at hlen
  simp only [String.length_append, md5Hex_length] at hlen
  exact absurd hlen (by decide)

/-- Witness for the amended C2 at the one-byte file. -/
theorem c2_subchunk_composite_witness :
    MoveData.calculateEtagChecksum [97] MoveData.UPLOAD_CHUNK_SIZE
      = md5Hex (md5Bytes [97]) ++ "-" ++ "1" :=
  (c2_subchunk_composite [97] MoveData.UPLOAD_CHUNK_SIZE (by decide) (by decide)).1

/-- C3 counterexample: the claim — `etagCompare` returns true whenever the
remote tag equals the plain digest or the composite digest — fails when
the tag contains a double quote: with remote tag and composite digest
both the string a-quote-b, the function strips the quote from the tag
before the composite comparison, compares the stripped ab against the
unstripped a-quote-b, and returns false even though the remote tag equals
the composite digest. -/
theorem c3_counterexample :
    ¬ (∀ etag zipHash localETag : String,
        etag = zipHash ∨ etag = localETag →
        MoveData.etagCompare etag zipHash localETag = true) := by
  intro h
  have h2 := h (String.mk ['a', MoveData.quoteChar, 'b']) "c"
    (String.mk ['a', MoveData.quoteChar, 'b']) (Or.inr rfl)
  revert h2
  decide

/-- C3 amended: `etagCompare` returns true when the remote tag equals the
plain digest or its quote-stripped form equals the composite digest, and
returns false only when the tag differs from the plain digest and its
quote-stripped form differs from the composite digest (empty inputs
short-circuit to true and so never produce false). -/
theorem c3_tag_comparison (etag zipHash localETag : String) :
    ((etag = zipHash ∨ MoveData.stripQuotes etag = localETag) →
      MoveData.etagCompare etag zipHash localETag = true) ∧
    (MoveData.etagCompare etag zipHash localETag = false →
      etag ≠ zipHash ∧ MoveData.stripQuotes etag ≠ localETag) := by
  constructor
  · intro h
    simp only [MoveData.etagCompare]
    split_ifs with h1 h2 h3
    · rfl
    · rfl
    · rfl
    · rcases h with h | h
      · exact absurd h h2
      · exact absurd h h3
  · intro h
    simp only [MoveData.etagCompare] at h
    split_ifs at h with h1 h2 h3
    · exact ⟨h2, h3⟩

/-- Witness for the amended C3: a tag equal to the plain digest compares
true. -/
theorem c3_tag_comparison_witness : MoveData.etagCompare "x" "x" "y" = true :=
  (c3_tag_comparison "x" "x" "y").1 (Or.inl rfl)

/-- C7: strategy selection is a total function on the fixed closed set of
move-type names — each of the fifteen recognized names maps to its
transport profile, and every other name (and an absent type) reaches the
`else` branch and raises the fatal `Exception`, before any job runs. -/
theorem c7_strategy_selection :
    (DataMovers.create (some "backup_runner") = Except.ok TransportProfile.backupToS3 ∧
     DataMovers.create (some "backup_lake") = Except.ok TransportProfile.backupToS3 ∧
     DataMovers.create (some "dev_databases") = Except.ok TransportProfile.backupToS3 ∧
     DataMovers.create (some "raw_files") = Except.ok TransportProfile.backupToS3 ∧
     DataMovers.create (some "staging_database") = Except.ok TransportProfile.backupToS3 ∧
     DataMovers.create (some "production") = Except.ok TransportProfile.backupToS3 ∧
     DataMovers.create (some "runner_to_lake") = Except.ok TransportProfile.moveRDSToRDS ∧
     DataMovers.create (some "move_schemas") = Except.ok TransportProfile.moveRDSToRDS ∧
     DataMovers.create (some "s3_to_lake") = Except.ok TransportProfile.s3ToLake ∧
     DataMovers.create (some "s3_to_lake_partial") = Except.ok TransportProfile.s3ToLake ∧
     DataMovers.create (some "create_database") = Except.ok TransportProfile.createDatabase ∧
     DataMovers.create (some "structure_backup") = Except.ok TransportProfile.structureBackup ∧
     DataMovers.create (some "build_runner_server") = Except.ok TransportProfile.buildRunnerServer ∧
     DataMovers.create (some "staging_to_process") = Except.ok TransportProfile.stagingToProcess ∧
     DataMovers.create (some "process_to_staging") = Except.ok TransportProfile.processToStaging) ∧
    (∀ t : String, t ∉ DataMovers.recognizedMoveTypes →
      DataMovers.create (some t) = Except.error MoveData.PyErr.exception) ∧
    DataMovers.create none = Except.error MoveData.PyErr.exception := by
  refine ⟨⟨rfl, rfl, rfl, rfl, rfl, rfl, rfl, rfl, rfl, rfl, rfl, rfl, rfl, rfl, rfl⟩, ?_, rfl⟩
  intro t ht
  simp only [DataMovers.recognizedMoveTypes, List.mem_cons, List.not_mem_nil, or_false,
    not_or] at ht
  obtain ⟨n1, n2, n3, n4, n5, n6, n7, n8, n9, n10, n11, n12, n13, n14, n15⟩ := ht
  simp [DataMovers.create, n1, n2, n3, n4, n5, n6, n7, n8, n9, n10, n11, n12, n13, n14, n15]

/-- Witness for C7: an unrecognized move-type name is rejected. -/
theorem c7_strategy_selection_witness :
    DataMovers.create (some "bogus_type") = Except.error MoveData.PyErr.exception :=
  c7_strategy_selection.2.1 "bogus_type" (by decide)

/-- The `S3ToLake` build loop keeps exactly the descriptors whose object
name is a key of the table restriction, in order, attaching the looked-up
subset. -/
theorem buildJobInfos_some_eq (ctx : DispatchCtx) (tbl : List (String × List String)) :
    ∀ l : List S3JobRow,
      S3ToLake.buildJobInfos ctx (some tbl) l =
        (l.filter (fun j => (S3ToLake.lookupTable tbl j.objectName).isSome)).map
          (fun j => S3ToLake.mkS3JobInfo ctx j (S3ToLake.lookupTable tbl j.objectName)) := by
  intro l
  induction l with
  | nil => rfl
  | cons j rest ih =>
    show S3ToLake.buildJobInfos ctx (some tbl) (j :: rest) = _
    unfold S3ToLake.buildJobInfos
    cases hlk : S3ToLake.lookupTable tbl j.objectName with
    | none => simp [List.filter_cons, hlk, ih]
    | some tl => simp [List.filter_cons, hlk, ih]

/-- C8: in a partial-restore dispatch carrying an inclusion set, the built
job list is exactly the eligible descriptors whose object name is a key
of the set (each paired with its table subset); descriptors whose name is
not a key are dropped and the call still returns normally (`Except.ok`),
not an error. -/
theorem c8_partial_restore_filter (ctx : DispatchCtx) (tbl : List (String × List String))
    (jobList : List S3JobRow) (hne : jobList ≠ []) :
    S3ToLake.createJobInfoList ctx (some tbl) jobList =
      Except.ok ((jobList.filter (fun j => (S3ToLake.lookupTable tbl j.objectName).isSome)).map
        (fun j => S3ToLake.mkS3JobInfo ctx j (S3ToLake.lookupTable tbl j.objectName))) := by
  unfold S3ToLake.createJobInfoList
  rw [if_pos (by cases jobList with
    | nil => exact absurd rfl hne
    | cons a as => simp)]
  rw [buildJobInfos_some_eq]

/-- Witness for C8: of two eligible descriptors only the one whose schema
name is a key of the inclusion set is kept, and the dispatch returns
normally. -/
theorem c8_partial_restore_filter_witness :
    S3ToLake.createJobInfoList ⟨⟨"h1", "d1"⟩, none, "s3_to_lake_partial", "20261012", "network"⟩
      (some [("a", ["t1"])])
      [⟨1, "a", "schema", some "pa"⟩, ⟨2, "b", "schema", some "pb"⟩] =
    Except.ok [S3ToLake.mkS3JobInfo
      ⟨⟨"h1", "d1"⟩, none, "s3_to_lake_partial", "20261012", "network"⟩
      ⟨1, "a", "schema", some "pa"⟩ (some ["t1"])] := by
  rw [c8_partial_restore_filter _ _ _ (by simp)]
  rfl

/-- C9: every password `generatePassword` returns satisfies the complexity
policy: its length is at least the requested `passwordLength` (the dot
separators inserted every four characters only lengthen it), it contains
a lowercase letter, an uppercase letter and at least three digits (the
retry loop only accepts such draws, and the dot separators change none of
these counts), and no character is one of the ambiguous 0, O, lowercase L
excluded from the alphabet. -/
theorem c9_generated_password_policy :
    ∀ (passwordLength fuel : Nat) (stream : List Nat) (result : String),
      MoveData.generatePassword passwordLength fuel stream = some result →
      passwordLength ≤ result.length ∧
      (∃ c ∈ result.data, c.isLower = true) ∧
      (∃ c ∈ result.data, c.isUpper = true) ∧
      3 ≤ result.data.countP (fun c => c.isDigit) ∧
      ∀ c ∈ result.data, c ≠ '0' ∧ c ≠ 'O' ∧ c ≠ 'l' := by
  intro n fuel
  induction fuel with
  | zero =>
    intro stream result h
    exact absurd h (by simp [MoveData.generatePassword])
  | succ f ih =>
    intro stream result h
    simp only [MoveData.generatePassword] at h
    set pw := (List.range n).map (MoveData.choiceFromAlphabet stream) with hpw
    split at h
    case isTrue hcond =>
      obtain ⟨hlow, hup, hdig⟩ := hcond
      have hres : String.mk (joinWith ['.'] (chunksOf 4 pw)) = result := by
        injection h
      subst hres
      have hflat : (chunksOf 4 pw).flatten = pw := chunksOf_join 4 pw (by decide)
      have hlenpw : pw.length = n := by simp [hpw]
      refine ⟨?_, ?_, ?_, ?_, ?_⟩
      · show n ≤ (joinWith ['.'] (chunksOf 4 pw)).length
        calc n = (chunksOf 4 pw).flatten.length := by rw [hflat, hlenpw]
          _ ≤ _ := joinWith_length_ge _ _
      · obtain ⟨c, hc, hcl⟩ := List.any_eq_true.mp hlow
        exact ⟨c, mem_joinWith_of_mem_flatten _ _ _ (by rw [hflat]; exact hc), hcl⟩
      · obtain ⟨c, hc, hcu⟩ := List.any_eq_true.mp hup
        exact ⟨c, mem_joinWith_of_mem_flatten _ _ _ (by rw [hflat]; exact hc), hcu⟩
      · show 3 ≤ (joinWith ['.'] (chunksOf 4 pw)).countP (fun c => c.isDigit)
        rw [joinWith_countP ['.'] _ (by decide), hflat]
        exact hdig
      · intro c hc
        rcases mem_flatten_or_sep_of_mem_joinWith _ _ _ hc with h' | h'
        · rw [hflat, hpw] at h'
          obtain ⟨i, _, hci⟩ := List.mem_map.mp h'
          exact alphabet_not_ambiguous c (hci ▸ choiceFromAlphabet_mem stream i)
        · have : c = '.' := by simpa using h'
          subst this
          exact ⟨by decide, by decide, by decide⟩
    case isFalse hcond =>
      exact ih (stream.drop n) result h

/-- Witness for C9: with one unit of fuel and a draw stream whose first
five indices select a lowercase letter, an uppercase letter and three
digits, generation succeeds and the policy holds at the result. -/
theorem c9_generated_password_policy_witness :
    ∃ r : String,
      MoveData.generatePassword 128 1 [0, 25, 50, 51, 52] = some r ∧
      128 ≤ r.length ∧ 3 ≤ r.data.countP (fun c => c.isDigit) := by
  have h : MoveData.generatePassword 128 1 [0, 25, 50, 51, 52]
      = some ((MoveData.generatePassword 128 1 [0, 25, 50, 51, 52]).getD "") := by rfl
  exact ⟨_, h, (c9_generated_password_policy 128 1 _ _ h).1,
    (c9_generated_password_policy 128 1 _ _ h).2.2.2.1⟩
